import Mathlib

/-!
Verification of the playback engine and progress/analytics subsystem of the
book-player repository: a shallow embedding of the persistent store
(src/services/database.ts), the audio session controller (audioContext), the
player screen effects, and the delete flow (src/app/index.tsx), with theorems
settling the specification claims.

Conventions of the embedding:
  - SQL tables become lists of row structures; CURRENT_TIMESTAMP becomes an
    explicit `now : Nat` argument; TEXT dates become `Nat` day numbers.
  - AUTOINCREMENT ids become explicit next-id counters carried in the store
    (ids are never reused, matching the AUTOINCREMENT keyword in the schema).
  - JavaScript Map objects become association lists inserted in key order.
  - async/await code becomes sequential state passing; a try/catch around a
    fallible call becomes a `match` on an `Except` result.
  - Date.now timestamps are modelled as monotone Nat values.
-/

namespace BookPlayer

/-- Row of the books table (interface Book in database.ts). -/
structure BookRow where
  id : Nat
  title : String
  author : Option String
  cover_path : Option String
  folder_path : String
  total_duration_ms : Nat
  created_at : Nat
deriving DecidableEq, Repr

/-- Row of the chapters table (interface Chapter in database.ts). -/
structure ChapterRow where
  id : Nat
  book_id : Nat
  title : String
  file_path : String
  duration_ms : Nat
  position : Nat
deriving DecidableEq, Repr

/-- Row of the progress table (interface Progress in database.ts); book_id is
the primary key. -/
structure ProgressRow where
  book_id : Nat
  current_chapter_id : Nat
  position_ms : Nat
  last_played_at : Nat
deriving DecidableEq, Repr

/-- Row of the book_history table (interface BookHistory in database.ts).
is_in_library is an SQL INTEGER, 0 or 1. -/
structure HistoryRow where
  id : Nat
  book_id : Option Nat
  title : String
  author : Option String
  cover_path : Option String
  total_duration_ms : Nat
  started_at : Nat
  completed_at : Option Nat
  is_in_library : Nat
deriving DecidableEq, Repr

/-- Row of the listening_sessions table (interface ListeningSession in
database.ts). The unique index idx_listening_sessions_unique keys rows by
(book_history_id, session_date). -/
structure SessionRow where
  id : Nat
  book_history_id : Nat
  duration_ms : Nat
  session_date : Nat
deriving DecidableEq, Repr

/-- The persistent store: the tables created by initializeDatabase plus the
AUTOINCREMENT counters of the tables the core inserts into. -/
structure Db where
  books : List BookRow
  chapters : List ChapterRow
  progress : List ProgressRow
  book_history : List HistoryRow
  listening_sessions : List SessionRow
  nextBookId : Nat
  nextHistoryId : Nat
  nextSessionId : Nat
deriving DecidableEq, Repr

/-- A freshly opened empty store (AUTOINCREMENT starts ids at 1). -/
def emptyDb : Db :=
  { books := [], chapters := [], progress := [], book_history := [],
    listening_sessions := [], nextBookId := 1, nextHistoryId := 1,
    nextSessionId := 1 }

/-- Insertion sort of chapters by the position column, the ORDER BY position
of getBookWithChapters. -/
def insertByPosition (c : ChapterRow) : List ChapterRow → List ChapterRow
  | [] => [c]
  | d :: ds => if c.position ≤ d.position then c :: d :: ds
               else d :: insertByPosition c ds

/-- Sort a chapter list by the position column. -/
def sortByPosition : List ChapterRow → List ChapterRow
  | [] => []
  | c :: cs => insertByPosition c (sortByPosition cs)

/-- getBookWithChapters: the book row with its chapters ordered by position;
none when the book id has no row. -/
def getBookWithChapters (db : Db) (bookId : Nat) :
    Option (BookRow × List ChapterRow) :=
  match db.books.find? (fun b => b.id == bookId) with
  | none => none
  | some b =>
      some (b, sortByPosition (db.chapters.filter (fun c => c.book_id == bookId)))

/-- getProgress: the progress row for a book, if any. -/
def getProgress (db : Db) (bookId : Nat) : Option ProgressRow :=
  db.progress.find? (fun r => r.book_id == bookId)

/-- updateProgress: INSERT ... ON CONFLICT(book_id) DO UPDATE — upsert of the
resume point keyed by book_id, stamping last_played_at with the current time. -/
def updateProgress (db : Db) (bookId chapterId posMs now : Nat) : Db :=
  if db.progress.any (fun r => r.book_id == bookId) then
    { db with progress := db.progress.map (fun r =>
        if r.book_id = bookId then
          { r with current_chapter_id := chapterId, position_ms := posMs,
                   last_played_at := now }
        else r) }
  else
    { db with progress := db.progress ++
        [{ book_id := bookId, current_chapter_id := chapterId,
           position_ms := posMs, last_played_at := now }] }

/-- updateBookDuration: UPDATE books SET total_duration_ms = ? WHERE id = ?. -/
def updateBookDuration (db : Db) (bookId total : Nat) : Db :=
  { db with books := db.books.map (fun b =>
      if b.id = bookId then { b with total_duration_ms := total } else b) }

/-- deleteBook: DELETE FROM books WHERE id = ?; the chapters and progress
foreign keys cascade, while book_history has no foreign key to books and is
untouched (listening_sessions references book_history, also untouched). -/
def deleteBook (db : Db) (bookId : Nat) : Db :=
  { db with books := db.books.filter (fun b => !(b.id == bookId)),
            chapters := db.chapters.filter (fun c => !(c.book_id == bookId)),
            progress := db.progress.filter (fun r => !(r.book_id == bookId)) }

/-- insertBook: INSERT INTO books, returning lastInsertRowId. -/
def insertBook (db : Db) (title folderPath : String)
    (author coverPath : Option String) (now : Nat) : Nat × Db :=
  (db.nextBookId,
   { db with
       books := db.books ++
         [{ id := db.nextBookId, title := title, author := author,
            cover_path := coverPath, folder_path := folderPath,
            total_duration_ms := 0, created_at := now }],
       nextBookId := db.nextBookId + 1 })

/-- markBookHistoryCompleted: UPDATE book_history SET completed_at =
CURRENT_TIMESTAMP WHERE id = ? AND completed_at IS NULL. -/
def markBookHistoryCompleted (db : Db) (bookHistoryId now : Nat) : Db :=
  { db with book_history := db.book_history.map (fun r =>
      if r.id = bookHistoryId ∧ r.completed_at = none then
        { r with completed_at := some now }
      else r) }

/-- markBookHistoryDeleted: UPDATE book_history SET is_in_library = 0,
book_id = NULL WHERE book_id = ?. -/
def markBookHistoryDeleted (db : Db) (bookId : Nat) : Db :=
  { db with book_history := db.book_history.map (fun r =>
      if r.book_id = some bookId then
        { r with is_in_library := 0, book_id := none }
      else r) }

/-- updateBookHistoryDuration: UPDATE book_history SET total_duration_ms = ?
WHERE id = ?. -/
def updateBookHistoryDuration (db : Db) (bookHistoryId total : Nat) : Db :=
  { db with book_history := db.book_history.map (fun r =>
      if r.id = bookHistoryId then { r with total_duration_ms := total }
      else r) }

/-- One history row built from a book row, as inserted by
getOrCreateBookHistory and by the initializeDatabase backfill
(started_at comes from the created_at of the book, is_in_library is 1,
completed_at starts NULL). -/
def historyRowOfBook (hid : Nat) (b : BookRow) : HistoryRow :=
  { id := hid, book_id := some b.id, title := b.title, author := b.author,
    cover_path := b.cover_path, total_duration_ms := b.total_duration_ms,
    started_at := b.created_at, completed_at := none, is_in_library := 1 }

/-- getOrCreateBookHistory: return the existing history row for the book, or
insert one copied from the book row; throws when the book id has no row
(the `throw new Error` in database.ts becomes the Except error branch). -/
def getOrCreateBookHistory (db : Db) (bookId : Nat) :
    Except String (HistoryRow × Db) :=
  match db.book_history.find? (fun r => r.book_id == some bookId) with
  | some existing => .ok (existing, db)
  | none =>
      match db.books.find? (fun b => b.id == bookId) with
      | none => .error ("Book " ++ toString bookId ++ " not found")
      | some b =>
          let row := historyRowOfBook db.nextHistoryId b
          .ok (row,
            { db with book_history := db.book_history ++ [row],
                      nextHistoryId := db.nextHistoryId + 1 })

/-- The backfill step of initializeDatabase: INSERT a history row for every
book that has none (the INSERT ... SELECT ... WHERE NOT EXISTS statement),
run on every database open. -/
def backfillHistory : Db → List BookRow → Db
  | db, [] => db
  | db, b :: bs =>
      if db.book_history.any (fun h => h.book_id == some b.id) then
        backfillHistory db bs
      else
        backfillHistory
          { db with
              book_history := db.book_history ++ [historyRowOfBook db.nextHistoryId b],
              nextHistoryId := db.nextHistoryId + 1 } bs

/-- initializeDatabase, restricted to its data effect on an already-created
schema: the book_history backfill. -/
def initializeDatabase (db : Db) : Db :=
  backfillHistory db db.books

/-- A single row update of the listening ledger: add ms to the first row
matching (book_history_id, session_date). Under the unique index there is at
most one such row, so this is the ON CONFLICT DO UPDATE of
upsertListeningSession. -/
def bumpSessionRow : List SessionRow → Nat → Nat → Nat → List SessionRow
  | [], _, _, _ => []
  | r :: rs, hid, ms, date =>
      if r.book_history_id = hid ∧ r.session_date = date then
        { r with duration_ms := r.duration_ms + ms } :: rs
      else r :: bumpSessionRow rs hid ms date

/-- upsertListeningSession: INSERT a day-bucketed ledger row, or on conflict
with the unique (book_history_id, session_date) index add the new amount to
the existing duration_ms. The date argument stands for the value of today. -/
def upsertListeningSession (db : Db) (bookHistoryId additionalMs date : Nat) : Db :=
  if db.listening_sessions.any (fun r =>
      r.book_history_id == bookHistoryId && r.session_date == date) then
    { db with listening_sessions :=
        bumpSessionRow db.listening_sessions bookHistoryId additionalMs date }
  else
    { db with
        listening_sessions := db.listening_sessions ++
          [{ id := db.nextSessionId, book_history_id := bookHistoryId,
             duration_ms := additionalMs, session_date := date }],
        nextSessionId := db.nextSessionId + 1 }

/-- getTotalListeningTimeForBook: SUM(duration_ms) over the ledger rows of one
history id. -/
def getTotalListeningTimeForBook (db : Db) (bookHistoryId : Nat) : Nat :=
  ((db.listening_sessions.filter (fun r => r.book_history_id == bookHistoryId)).map
    (fun r => r.duration_ms)).sum

/-! ## The audio session controller (AudioProvider of the audioContext file) -/

/-- The React state of the AudioProvider (interface AudioState). The playback
rate is modelled as an opaque Nat since no claim concerns its numeric value. -/
structure AudioState where
  book : Option BookRow
  chapters : List ChapterRow
  currentChapterIndex : Nat
  isPlaying : Bool
  isLoading : Bool
  positionMs : Nat
  durationMs : Nat
  playbackSpeed : Nat
  error : Option String
deriving DecidableEq, Repr

/-- The initialState constant of the AudioProvider. -/
def initialState : AudioState :=
  { book := none, chapters := [], currentChapterIndex := 0, isPlaying := false,
    isLoading := false, positionMs := 0, durationMs := 0, playbackSpeed := 1,
    error := none }

/-- A loaded expo-av sound object, reduced to the parameters the controller
sets on it (the chapter file it was created for, its seek position and its
shouldPlay flag). -/
structure SoundUnit where
  chapterId : Nat
  positionMs : Nat
  shouldPlay : Bool
deriving DecidableEq, Repr

/-- The full mutable state of the AudioProvider: the React state plus the refs
(soundRef, chapterDurationsRef, isTransitioningRef, bookHistoryRef,
accumulatedListeningMsRef, lastProgressTimestampRef). The chapter duration
Map is an association list from chapter id to discovered duration. -/
structure Session where
  state : AudioState
  sound : Option SoundUnit
  chapterDurations : List (Nat × Nat)
  isTransitioning : Bool
  bookHistory : Option HistoryRow
  accumulatedListeningMs : Nat
  lastProgressTimestamp : Option Nat
deriving DecidableEq, Repr

/-- The session at provider mount: initialState with empty refs. -/
def emptySession : Session :=
  { state := initialState, sound := none, chapterDurations := [],
    isTransitioning := false, bookHistory := none,
    accumulatedListeningMs := 0, lastProgressTimestamp := none }

/-- Map.has on the chapter duration map. -/
def mapHas (m : List (Nat × Nat)) (k : Nat) : Bool :=
  m.any (fun p => p.1 == k)

/-- Map.set on the chapter duration map (in the source it is only called under
a negative has check, so the append branch is the one exercised). -/
def mapSet (m : List (Nat × Nat)) (k v : Nat) : List (Nat × Nat) :=
  if mapHas m k then m.map (fun p => if p.1 == k then (k, v) else p)
  else m ++ [(k, v)]

/-- Map.size on the chapter duration map. -/
def mapSize (m : List (Nat × Nat)) : Nat := m.length

/-- The forEach summation of all recorded chapter durations. -/
def mapSumValues (m : List (Nat × Nat)) : Nat := (m.map (fun p => p.2)).sum

/-- An expo-av playback status delivered to onPlaybackStatusUpdate: either not
loaded (with an optional error message), or loaded with position, duration
(0 standing for an undefined durationMillis), the playing flag, the
didJustFinish flag and the isLooping flag. -/
inductive AVStatus where
  | notLoaded (error : Option String)
  | loaded (positionMillis durationMillis : Nat)
      (isPlaying didJustFinish isLooping : Bool)
deriving DecidableEq, Repr

/-- A database write issued from inside the status-update handler or the
player screen unmount effect, kept as an observable event. -/
inductive DbWrite where
  | bookDuration (bookId total : Nat)
  | historyDuration (bookHistoryId total : Nat)
  | historyCompleted (bookHistoryId : Nat)
  | progressWrite (bookId chapterId posMs : Nat)
deriving DecidableEq, Repr

/-- Apply one recorded write to the store at time now. -/
def applyWrite (db : Db) (now : Nat) : DbWrite → Db
  | .bookDuration bookId total => updateBookDuration db bookId total
  | .historyDuration hid total => updateBookHistoryDuration db hid total
  | .historyCompleted hid => markBookHistoryCompleted db hid now
  | .progressWrite bookId chapterId posMs =>
      updateProgress db bookId chapterId posMs now

/-- Apply a list of recorded writes in order. -/
def applyWrites (db : Db) (now : Nat) (ws : List DbWrite) : Db :=
  ws.foldl (fun d w => applyWrite d now w) db

/-- The duration-discovery block of onPlaybackStatusUpdate: when a positive
duration is reported and the current chapter is not yet in the per-session
map, record it; when that insertion makes the map size equal the chapter
count, emit the total-duration writes (books row, and mirror to book_history
when a history row is attached). Returns the new map and the writes. -/
def trackChapterDuration (s : Session) (dur : Nat) :
    List (Nat × Nat) × List DbWrite :=
  let cur := s.state
  if dur > 0 then
    match cur.chapters.get? cur.currentChapterIndex with
    | none => (s.chapterDurations, [])
    | some ch =>
        if mapHas s.chapterDurations ch.id then (s.chapterDurations, [])
        else
          let m := mapSet s.chapterDurations ch.id dur
          match cur.book with
          | none => (m, [])
          | some b =>
              if mapSize m = cur.chapters.length then
                let total := mapSumValues m
                (m, [DbWrite.bookDuration b.id total] ++
                    (match s.bookHistory with
                     | some h => [DbWrite.historyDuration h.id total]
                     | none => []))
              else (m, [])
  else (s.chapterDurations, [])

/-- The completion-edge block of onPlaybackStatusUpdate: on didJustFinish and
not looping, either schedule an advance to the next chapter (returned as the
chapter index for the deferred goToChapter call) or, on the last chapter,
emit the markBookHistoryCompleted write. -/
def finishEdge (s : Session) (fin looping : Bool) :
    Option Nat × List DbWrite :=
  let cur := s.state
  if fin && !looping then
    if cur.currentChapterIndex < cur.chapters.length - 1 then
      (some (cur.currentChapterIndex + 1), [])
    else
      match s.bookHistory with
      | some h => (none, [DbWrite.historyCompleted h.id])
      | none => (none, [])
  else (none, [])

/-- onPlaybackStatusUpdate: the status callback of the audio unit. Not-loaded
statuses only record an error; loaded statuses are discarded while the
transition guard is set, and otherwise mirror position, duration and the
playing flag into the React state, run duration discovery, and handle the
completion edge. Returns the new session, the database writes issued, and the
chapter index of a scheduled goToChapter advance, if any. -/
def onPlaybackStatusUpdate (s : Session) (status : AVStatus) :
    Session × List DbWrite × Option Nat :=
  match status with
  | .notLoaded err =>
      match err with
      | some e =>
          ({ s with state := { s.state with
              error := some ("Playback error: " ++ e) } }, [], none)
      | none => (s, [], none)
  | .loaded pos dur playing fin looping =>
      if s.isTransitioning then (s, [], none)
      else
        let st1 := { s.state with
          positionMs := pos, durationMs := dur, isPlaying := playing }
        let td := trackChapterDuration s dur
        let fe := finishEdge s fin looping
        ({ s with state := st1, chapterDurations := td.1 },
         td.2 ++ fe.2, fe.1)

/-! ## The progress reconciler (the saveProgress interval effect) -/

/-- The listening-time accumulation step of a reconciler tick: when playing
and a previous playing-tick timestamp exists, add the elapsed wall-clock time
clamped to 10000 ms; otherwise the accumulator is unchanged. -/
def tickAccum (s : Session) (now : Nat) : Nat :=
  if s.state.isPlaying then
    match s.lastProgressTimestamp with
    | some last => s.accumulatedListeningMs + min (now - last) 10000
    | none => s.accumulatedListeningMs
  else s.accumulatedListeningMs

/-- One tick of the saveProgress interval. Arguments: the wall clock now, the
value of today for the day bucket, and whether the awaited
upsertListeningSession resolves (false models the caught rejection). The tick
is discarded while the transition guard is set or when no book, no chapters
or a zero position is visible; otherwise it accumulates clamped listening
time, flushes the accumulator to the ledger (resetting it before the await),
and upserts the resume point. -/
def saveTick (s : Session) (db : Db) (now today : Nat) (upsertOk : Bool) :
    Session × Db :=
  if s.isTransitioning then (s, db)
  else
    match s.state.book with
    | none => (s, db)
    | some book =>
        if s.state.chapters.length = 0 ∨ s.state.positionMs = 0 then (s, db)
        else
          let acc1 := tickAccum s now
          let lastTs : Option Nat := if s.state.isPlaying then some now else none
          let flushed :=
            match s.bookHistory with
            | some h =>
                if acc1 > 0 then
                  (0, if upsertOk then upsertListeningSession db h.id acc1 today
                      else db)
                else (acc1, db)
            | none => (acc1, db)
          let db2 :=
            match s.state.chapters.get? s.state.currentChapterIndex with
            | some ch =>
                if s.state.isPlaying ∨ s.state.positionMs > 0 then
                  updateProgress flushed.2 book.id ch.id s.state.positionMs now
                else flushed.2
            | none => flushed.2
          ({ s with accumulatedListeningMs := flushed.1,
                    lastProgressTimestamp := lastTs }, db2)

/-! ## Session-mutating operations -/

/-- The loadChapterAudio helper as a trace of session states, one per await
point: after unloading the previous sound, after entering the loading state,
and after Audio.Sound.createAsync resolves (createOk true) or rejects
(createOk false, setting the user-facing error). -/
def loadChapterAudioTrace (s : Session) (ch : ChapterRow)
    (initialPosition : Nat) (shouldAutoPlay createOk : Bool) : List Session :=
  let s1 := { s with sound := none }
  let s2 := { s1 with state := { s1.state with isLoading := true, error := none } }
  let s3 :=
    if createOk then
      { s2 with
          sound := some { chapterId := ch.id, positionMs := initialPosition,
                          shouldPlay := shouldAutoPlay },
          state := { s2.state with isLoading := false } }
    else
      { s2 with state :=
          { s2.state with
              isLoading := false,
              error := some "Unable to play this audiobook. The file may not be accessible.\n\nTry re-importing the book." } }
  [s1, s2, s3]

/-- Final session of loadChapterAudio. -/
def loadChapterAudio (s : Session) (ch : ChapterRow) (initialPosition : Nat)
    (shouldAutoPlay createOk : Bool) : Session :=
  (loadChapterAudioTrace s ch initialPosition shouldAutoPlay createOk).getLastD s

/-- goToChapter as a trace of session states: out-of-range indices are
silently ignored; otherwise the chapter index and position are set and the
chapter audio is loaded, preserving the playing intent of the caller. The
transition guard ref is nowhere assigned in its source. -/
def goToChapterTrace (s : Session) (chapterIndex startPosition : Nat)
    (createOk : Bool) : List Session :=
  match s.state.chapters.get? chapterIndex with
  | none => [s]
  | some ch =>
      let s1 := { s with state := { s.state with
        currentChapterIndex := chapterIndex, positionMs := startPosition } }
      s1 :: loadChapterAudioTrace s1 ch startPosition s.state.isPlaying createOk

/-- Final session of goToChapter. -/
def goToChapter (s : Session) (chapterIndex startPosition : Nat)
    (createOk : Bool) : Session :=
  (goToChapterTrace s chapterIndex startPosition createOk).getLastD s

/-- seekTo: no-op without a sound or a book; otherwise repositions the audio
unit and immediately upserts the resume point with the requested position
(the source passes positionMs through unclamped). -/
def seekTo (s : Session) (db : Db) (positionMs now : Nat) : Session × Db :=
  match s.sound, s.state.book with
  | some sound, some book =>
      let s1 := { s with sound := some { sound with positionMs := positionMs } }
      match s.state.chapters.get? s.state.currentChapterIndex with
      | some ch => (s1, updateProgress db book.id ch.id positionMs now)
      | none => (s1, db)
  | _, _ => (s, db)

/-- seekRelative: clamp position plus delta to [0, durationMs] and delegate to
seekTo (Math.max 0 (Math.min durationMs (positionMs + deltaMs))). -/
def seekRelative (s : Session) (db : Db) (deltaMs : Int) (now : Nat) :
    Session × Db :=
  let newPosition : Nat :=
    (max 0 (min (s.state.durationMs : Int) ((s.state.positionMs : Int) + deltaMs))).toNat
  seekTo s db newPosition now

/-- stopAndUnload as a trace of session states, one per await point: the
session is unchanged while the final resume point is written, the sound is
then unloaded, and finally the React state and every per-session ref is reset
to its initial value. The transition guard ref is nowhere assigned in its
source. -/
def stopAndUnloadTrace (s : Session) : List Session :=
  [s, { s with sound := none },
   { state := initialState, sound := none, chapterDurations := [],
     isTransitioning := s.isTransitioning, bookHistory := none,
     accumulatedListeningMs := 0, lastProgressTimestamp := none }]

/-- stopAndUnload: save the final resume point when a positive position is
visible, unload the sound, and reset the session. -/
def stopAndUnload (s : Session) (db : Db) (now : Nat) : Session × Db :=
  let db1 :=
    match s.state.book with
    | some book =>
        if s.state.chapters.length > 0 ∧ s.state.positionMs > 0 then
          match s.state.chapters.get? s.state.currentChapterIndex with
          | some ch => updateProgress db book.id ch.id s.state.positionMs now
          | none => db
        else db
    | none => db
  ((stopAndUnloadTrace s).getLastD s, db1)

/-- loadBook, as a trace of session states (one per await point) and the final
store. The same-book re-entry guard returns unchanged; otherwise the
transition guard is set, the previous resume point is flushed, the previous
sound is unloaded, the book and chapters are fetched (a missing id clears the
guard and surfaces the Book not found error), the saved resume point is
resolved, per-session accumulators are reset, the history row is obtained or
created (a failure there is caught and leaves no history attached), the new
state is published, the guard is cleared, and the chapter audio is loaded
followed by an immediate resume-point write. The Except layer carries any
uncaught exception; no branch produces one. -/
def loadBookRun (s : Session) (db : Db) (bookId now : Nat) (createOk : Bool) :
    Except String (List Session × Db) :=
  if (match s.state.book with
      | some b => b.id == bookId
      | none => false) && s.sound.isSome then
    .ok ([s], db)
  else
    let s1 := { s with isTransitioning := true }
    let db1 :=
      match s1.state.book with
      | some prevBook =>
          if s1.state.chapters.length > 0 ∧ s1.state.positionMs > 0 then
            match s1.state.chapters.get? s1.state.currentChapterIndex with
            | some prevChapter =>
                updateProgress db prevBook.id prevChapter.id
                  s1.state.positionMs now
            | none => db
          else db
      | none => db
    let s2 := { s1 with sound := none }
    let s3 := { s2 with state :=
        { s2.state with isLoading := true, error := none } }
    match getBookWithChapters db1 bookId with
    | none =>
        let s4 := { s3 with isTransitioning := false }
        let s5 := { s4 with state :=
            { s4.state with isLoading := false, error := some "Book not found" } }
        .ok ([s1, s2, s3, s4, s5], db1)
    | some bookData =>
        let resolved : Nat × Nat :=
          match getProgress db1 bookId with
          | some progress =>
              if bookData.2.length > 0 then
                match bookData.2.findIdx? (fun c =>
                    c.id == progress.current_chapter_id) with
                | some foundIndex => (foundIndex, progress.position_ms)
                | none => (0, 0)
              else (0, 0)
          | none => (0, 0)
        let s4 := { s3 with chapterDurations := [] }
        let hist := getOrCreateBookHistory db1 bookId
        let s5 :=
          match hist with
          | .ok h => { s4 with bookHistory := some h.1 }
          | .error _ => { s4 with bookHistory := none }
        let db2 :=
          match hist with
          | .ok h => h.2
          | .error _ => db1
        let s6 := { s5 with accumulatedListeningMs := 0,
                            lastProgressTimestamp := none }
        let s7 := { s6 with state :=
            { s6.state with
                book := some bookData.1, chapters := bookData.2,
                currentChapterIndex := resolved.1, positionMs := resolved.2,
                isLoading := false } }
        let s8 := { s7 with isTransitioning := false }
        if bookData.2.length > 0 then
          match bookData.2.get? resolved.1 with
          | some ch =>
              let tr := loadChapterAudioTrace s8 ch resolved.2 false createOk
              let db3 := updateProgress db2 bookData.1.id ch.id resolved.2 now
              .ok ([s1, s2, s3, s4, s5, s6, s7, s8] ++ tr, db3)
          | none => .ok ([s1, s2, s3, s4, s5, s6, s7, s8], db2)
        else .ok ([s1, s2, s3, s4, s5, s6, s7, s8], db2)

/-- Final session and store of loadBook. -/
def loadBook (s : Session) (db : Db) (bookId now : Nat) (createOk : Bool) :
    Except String (Session × Db) :=
  match loadBookRun s db bookId now createOk with
  | .ok r => .ok (r.1.getLastD s, r.2)
  | .error e => .error e

/-! ## The player screen (the standalone PlayerScreen component) -/

/-- The refs of the player screen component that its unmount cleanup effect
reads: bookRef, chaptersRef, currentChapterIndexRef, positionMsRef and the
chapterDurationsRef map of the screen. -/
structure PlayerScreenRefs where
  book : Option BookRow
  chapters : List ChapterRow
  currentChapterIndex : Nat
  positionMs : Nat
  chapterDurations : List (Nat × Nat)
deriving DecidableEq, Repr

/-- The unmount cleanup effect of the player screen: with a book and chapters
present it saves the playback position when positive, and then, whenever the
duration map is nonempty, writes the sum of the durations discovered so far
as the total duration of the book. -/
def playerUnmountWrites (r : PlayerScreenRefs) : List DbWrite :=
  match r.book with
  | none => []
  | some currentBook =>
      if r.chapters.length > 0 then
        (if r.positionMs > 0 then
           match r.chapters.get? r.currentChapterIndex with
           | some ch =>
               [DbWrite.progressWrite currentBook.id ch.id r.positionMs]
           | none => []
         else [])
        ++ (if mapSize r.chapterDurations > 0 then
              [DbWrite.bookDuration currentBook.id
                 (mapSumValues r.chapterDurations)]
            else [])
      else []

/-! ## Library-level operations on the store (for the history lifecycle) -/

/-- The store-mutating events relevant to the BookHistory lifecycle: importing
a book (insertBook from the scanner), reopening the database (the
initializeDatabase backfill), first playback of a book (the
getOrCreateBookHistory step of loadBook, whose failure is caught), and the
delete flow. -/
inductive LibOp where
  | opImport (title folder : String) (author cover : Option String) (now : Nat)
  | opRestart
  | opPlay (bookId : Nat)
  | opDelete (bookId : Nat)
deriving DecidableEq, Repr

/-- Effect of one library operation on the store. -/
def applyOp (db : Db) : LibOp → Db
  | .opImport t f a c now => (insertBook db t f a c now).2
  | .opRestart => initializeDatabase db
  | .opPlay bookId =>
      match getOrCreateBookHistory db bookId with
      | .ok r => r.2
      | .error _ => db
  | .opDelete bookId => deleteBook db bookId

/-- Effect of a sequence of library operations on the store. -/
def applyOps (db : Db) (ops : List LibOp) : Db := ops.foldl applyOp db

/-- Number of history rows pointing at a given book id. -/
def historyCountFor (db : Db) (bookId : Nat) : Nat :=
  db.book_history.countP (fun h => h.book_id == some bookId)

/-! ## Concrete fixtures for witnesses and counterexamples -/

/-- A sample imported book. -/
def bkA : BookRow :=
  { id := 1, title := "A", author := none, cover_path := none,
    folder_path := "/a", total_duration_ms := 0, created_at := 0 }

/-- First chapter of the sample book. -/
def chA1 : ChapterRow :=
  { id := 10, book_id := 1, title := "c1", file_path := "/a/1.mp3",
    duration_ms := 0, position := 0 }

/-- Second chapter of the sample book. -/
def chA2 : ChapterRow :=
  { id := 11, book_id := 1, title := "c2", file_path := "/a/2.mp3",
    duration_ms := 0, position := 1 }

/-- The history row of the sample book, not yet completed. -/
def histA : HistoryRow :=
  { id := 5, book_id := some 1, title := "A", author := none,
    cover_path := none, total_duration_ms := 0, started_at := 0,
    completed_at := none, is_in_library := 1 }

/-- A store holding the sample book, its chapters, its history row and one
ledger row. -/
def dbA : Db :=
  { books := [bkA], chapters := [chA1, chA2], progress := [],
    book_history := [histA], listening_sessions :=
      [{ id := 1, book_history_id := 5, duration_ms := 1234, session_date := 40 }],
    nextBookId := 2, nextHistoryId := 6, nextSessionId := 2 }

/-- A session with the sample book loaded on its first chapter, playing. -/
def sessA : Session :=
  { state :=
      { book := some bkA, chapters := [chA1, chA2], currentChapterIndex := 0,
        isPlaying := true, isLoading := false, positionMs := 500,
        durationMs := 1000, playbackSpeed := 1, error := none },
    sound := some { chapterId := 10, positionMs := 500, shouldPlay := true },
    chapterDurations := [], isTransitioning := false,
    bookHistory := some histA, accumulatedListeningMs := 0,
    lastProgressTimestamp := none }

/-! ## Claim C4 -/

/-- Claim C4: a BookHistory completed_at value is set at most once and never
unset. The guarded UPDATE of markBookHistoryCompleted makes a second call a
no-op on the whole table, a finish sets completed_at on the row that lacks
it, a row whose completed_at is already set is carried over unchanged, and
the didJustFinish branch of the status handler emits the completion write
exactly when no next chapter exists. -/
theorem c4_completion_idempotent (db : Db) (hid t1 t2 : Nat) :
    markBookHistoryCompleted (markBookHistoryCompleted db hid t1) hid t2
      = markBookHistoryCompleted db hid t1
    ∧ (∀ r ∈ db.book_history, r.id = hid → r.completed_at = none →
        { r with completed_at := some t1 }
          ∈ (markBookHistoryCompleted db hid t1).book_history)
    ∧ (∀ r ∈ db.book_history, r.completed_at.isSome →
        r ∈ (markBookHistoryCompleted db hid t1).book_history)
    ∧ (∀ (s : Session) (pos dur : Nat) (playing : Bool) (h : HistoryRow),
        s.isTransitioning = false → s.bookHistory = some h →
        ¬ s.state.currentChapterIndex < s.state.chapters.length - 1 →
        DbWrite.historyCompleted h.id ∈
          (onPlaybackStatusUpdate s (.loaded pos dur playing true false)).2.1) := by
  refine ⟨?_, ?_, ?_, ?_⟩
  · simp only [markBookHistoryCompleted, List.map_map]
    congr 1
    apply List.map_congr_left
    intro r _
    by_cases h1 : r.id = hid ∧ r.completed_at = none
    · simp [h1]
    · simp [h1]
  · intro r hr hid1 hnone
    have : ({ r with completed_at := some t1 } : HistoryRow)
        = (fun r => if r.id = hid ∧ r.completed_at = none then
            { r with completed_at := some t1 } else r) r := by
      simp [hid1, hnone]
    rw [this]
    exact List.mem_map_of_mem _ hr
  · intro r hr hsome
    have : r = (fun r => if r.id = hid ∧ r.completed_at = none then
        { r with completed_at := some t1 } else r) r := by
      rcases h : r.completed_at with _ | c
      · rw [h] at hsome; simp at hsome
      · simp [h]
    rw [markBookHistoryCompleted]
    exact this ▸ List.mem_map_of_mem _ hr
  · intro s pos dur playing h htrans hh hlast
    simp only [onPlaybackStatusUpdate, htrans, Bool.false_eq_true, if_false,
      finishEdge, hh, Bool.and_true, Bool.not_false]
    simp [hlast]

/-- Witness for C4 at the sample store: the first completion stamps the row,
the second call leaves the table unchanged. -/
theorem c4_witness :
    ({ histA with completed_at := some 100 } : HistoryRow)
        ∈ (markBookHistoryCompleted dbA 5 100).book_history
    ∧ markBookHistoryCompleted (markBookHistoryCompleted dbA 5 100) 5 200
        = markBookHistoryCompleted dbA 5 100 :=
  ⟨(c4_completion_idempotent dbA 5 100 200).2.1 histA (by simp [dbA]) rfl rfl,
   (c4_completion_idempotent dbA 5 100 200).1⟩

/-! ## Claim C7 -/

/-- Repeated ledger upserts of amounts for one (book_history_id,
session_date) key, in order. -/
def foldUpserts (db : Db) (hid date : Nat) (amounts : List Nat) : Db :=
  amounts.foldl (fun d a => upsertListeningSession d hid a date) db

lemma bumpSessionRow_append (L0 : List SessionRow) (i hid d ms date : Nat)
    (h : ∀ r ∈ L0, ¬(r.book_history_id = hid ∧ r.session_date = date)) :
    bumpSessionRow (L0 ++
        [{ id := i, book_history_id := hid, duration_ms := d,
           session_date := date }]) hid ms date
      = L0 ++ [{ id := i, book_history_id := hid, duration_ms := d + ms,
                 session_date := date }] := by
  induction L0 with
  | nil => simp [bumpSessionRow]
  | cons r rs ih =>
      have hr := h r (by simp)
      simp only [List.cons_append, bumpSessionRow, if_neg hr, List.append_eq]
      rw [ih (fun x hx => h x (by simp [hx]))]

lemma foldUpserts_bump (hid date : Nat) (amounts : List Nat) :
    ∀ (db : Db) (L0 : List SessionRow) (i d : Nat),
    (∀ r ∈ L0, ¬(r.book_history_id = hid ∧ r.session_date = date)) →
    db.listening_sessions = L0 ++
      [{ id := i, book_history_id := hid, duration_ms := d,
         session_date := date }] →
    foldUpserts db hid date amounts
      = { db with listening_sessions := L0 ++
            [{ id := i, book_history_id := hid, duration_ms := d + amounts.sum,
               session_date := date }] } := by
  induction amounts with
  | nil =>
      intro db L0 i d h hdb
      simp only [foldUpserts, List.foldl_nil, List.sum_nil, Nat.add_zero]
      rw [← hdb]
  | cons a as ih =>
      intro db L0 i d h hdb
      have hany : (db.listening_sessions.any (fun r =>
          r.book_history_id == hid && r.session_date == date)) = true := by
        rw [hdb]; simp
      simp only [foldUpserts, List.foldl_cons]
      have hup : upsertListeningSession db hid a date
          = { db with listening_sessions := L0 ++
              [{ id := i, book_history_id := hid, duration_ms := d + a,
                 session_date := date }] } := by
        rw [upsertListeningSession, if_pos hany, hdb,
          bumpSessionRow_append L0 i hid d a date h]
      rw [hup]
      have := ih { db with listening_sessions := L0 ++
          [{ id := i, book_history_id := hid, duration_ms := d + a,
             session_date := date }] } L0 i (d + a) h rfl
      rw [foldUpserts] at this
      rw [this]
      simp [Nat.add_assoc]

/-- Claim C7: starting from a ledger with no row for (book_history_id,
session_date), upserting amounts d1..dk leaves the store unchanged except for
exactly one new row for that key whose duration_ms is the sum of the
amounts, and the rows matching the key in the result are exactly that single
row. -/
theorem c7_ledger_upsert (db : Db) (hid date : Nat) (amounts : List Nat)
    (hnone : ∀ r ∈ db.listening_sessions,
      ¬(r.book_history_id = hid ∧ r.session_date = date))
    (hne : amounts ≠ []) :
    foldUpserts db hid date amounts
      = { db with
            listening_sessions := db.listening_sessions ++
              [{ id := db.nextSessionId, book_history_id := hid,
                 duration_ms := amounts.sum, session_date := date }],
            nextSessionId := db.nextSessionId + 1 }
    ∧ ((foldUpserts db hid date amounts).listening_sessions.filter
          (fun r => r.book_history_id == hid && r.session_date == date))
        = [{ id := db.nextSessionId, book_history_id := hid,
             duration_ms := amounts.sum, session_date := date }] := by
  match amounts, hne with
  | a :: as, _ =>
    have hany : (db.listening_sessions.any (fun r =>
        r.book_history_id == hid && r.session_date == date)) = false := by
      simp only [List.any_eq_false]
      intro r hr
      have := hnone r hr
      simp only [Bool.and_eq_true, beq_iff_eq]
      exact fun hc => this ⟨hc.1, hc.2⟩
    have hup : upsertListeningSession db hid a date
        = { db with
              listening_sessions := db.listening_sessions ++
                [{ id := db.nextSessionId, book_history_id := hid,
                   duration_ms := a, session_date := date }],
              nextSessionId := db.nextSessionId + 1 } := by
      rw [upsertListeningSession, if_neg (by simp [hany])]
    have hfold : foldUpserts db hid date (a :: as)
        = { db with
              listening_sessions := db.listening_sessions ++
                [{ id := db.nextSessionId, book_history_id := hid,
                   duration_ms := a + as.sum, session_date := date }],
              nextSessionId := db.nextSessionId + 1 } := by
      simp only [foldUpserts, List.foldl_cons]
      rw [hup]
      have := foldUpserts_bump hid date as
        { db with
            listening_sessions := db.listening_sessions ++
              [{ id := db.nextSessionId, book_history_id := hid,
                 duration_ms := a, session_date := date }],
            nextSessionId := db.nextSessionId + 1 }
        db.listening_sessions db.nextSessionId a hnone rfl
      rw [foldUpserts] at this
      rw [this]
    refine ⟨by rw [hfold]; simp, ?_⟩
    rw [hfold]
    simp only [List.sum_cons, List.filter_append]
    have h0 : db.listening_sessions.filter (fun r =>
        r.book_history_id == hid && r.session_date == date) = [] := by
      simp only [List.filter_eq_nil_iff]
      intro r hr
      have := hnone r hr
      simp only [Bool.and_eq_true, beq_iff_eq, not_and]
      exact fun h1 h2 => this ⟨h1, h2⟩
    rw [h0]
    simp

/-- Witness for C7: two upserts of 300 and 400 ms for history id 5 on day 41
leave exactly one new ledger row carrying 700 ms. -/
theorem c7_witness :
    foldUpserts dbA 5 41 [300, 400]
      = { dbA with
            listening_sessions := dbA.listening_sessions ++
              [{ id := 2, book_history_id := 5, duration_ms := 700,
                 session_date := 41 }],
            nextSessionId := 3 } :=
  (c7_ledger_upsert dbA 5 41 [300, 400] (by decide) (by decide)).1

/-! ## Claim C3 -/

lemma find?_update_list (l : List ProgressRow) (bookId chapterId posMs now : Nat)
    (hany : l.any (fun r => r.book_id == bookId) = true) :
    (l.map (fun r => if r.book_id = bookId then
        { r with current_chapter_id := chapterId, position_ms := posMs,
                 last_played_at := now } else r)).find?
      (fun r => r.book_id == bookId)
      = some { book_id := bookId, current_chapter_id := chapterId,
               position_ms := posMs, last_played_at := now } := by
  induction l with
  | nil => simp at hany
  | cons r rs ih =>
      by_cases h : r.book_id = bookId
      · simp only [List.map_cons, if_pos h]
        rw [List.find?_cons_of_pos _ (by simp [h])]
        simp [h]
      · have hrs : rs.any (fun r => r.book_id == bookId) = true := by
          simp only [List.any_cons] at hany
          simpa [h] using hany
        simp only [List.map_cons, if_neg h]
        rw [List.find?_cons_of_neg _ (by simp [h])]
        exact ih hrs

lemma getProgress_updateProgress (db : Db) (bookId chapterId posMs now : Nat) :
    getProgress (updateProgress db bookId chapterId posMs now) bookId
      = some { book_id := bookId, current_chapter_id := chapterId,
               position_ms := posMs, last_played_at := now } := by
  rw [updateProgress]
  by_cases hany : (db.progress.any (fun r => r.book_id == bookId)) = true
  · rw [if_pos hany, getProgress]
    exact find?_update_list db.progress bookId chapterId posMs now hany
  · rw [if_neg hany, getProgress]
    have hno : ∀ r ∈ db.progress, ¬(r.book_id == bookId) = true := by
      intro r hr hc
      exact hany (List.any_eq_true.mpr ⟨r, hr, hc⟩)
    rw [List.find?_append]
    have h1 : db.progress.find? (fun r => r.book_id == bookId) = none :=
      List.find?_eq_none.mpr hno
    rw [h1]
    simp

/-- Claim C3 (amended): after seek_to(x) returns with a sound and a book
loaded, the Progress row for the book holds position_ms equal to x exactly as
passed — the source persists the raw argument, performing no clamping in
seek_to itself; the clamp to [0, duration] happens only in seek_relative,
which delegates the already-clamped value to seek_to. The write is part of
the seek itself, not of the periodic tick. -/
theorem c3_seek_unclamped (s : Session) (db : Db) (x now : Nat)
    (u : SoundUnit) (book : BookRow) (ch : ChapterRow)
    (hsound : s.sound = some u) (hbook : s.state.book = some book)
    (hch : s.state.chapters.get? s.state.currentChapterIndex = some ch) :
    getProgress (seekTo s db x now).2 book.id
      = some { book_id := book.id, current_chapter_id := ch.id,
               position_ms := x, last_played_at := now }
    ∧ (∀ delta : Int, seekRelative s db delta now
        = seekTo s db (max 0 (min (s.state.durationMs : Int)
            ((s.state.positionMs : Int) + delta))).toNat now) := by
  constructor
  · simp only [seekTo, hsound, hbook, hch]
    exact getProgress_updateProgress db book.id ch.id x now
  · intro delta
    rfl

/-- Counterexample for C3 as stated: seeking to 5000 in a chapter whose
visible duration is 1000 persists position_ms = 5000, not the clamped 1000
the claim requires. -/
theorem c3_clamp_counterexample :
    (getProgress (seekTo sessA dbA 5000 7).2 1).map (fun r => r.position_ms)
      = some 5000
    ∧ sessA.state.durationMs = 1000
    ∧ min 5000 sessA.state.durationMs = 1000
    ∧ (5000 : Nat) ≠ 1000 := by
  refine ⟨?_, rfl, rfl, by decide⟩
  rfl

/-- Witness for C3: an in-range seek to 800 persists exactly 800 for the
sample session. -/
theorem c3_witness :
    getProgress (seekTo sessA dbA 800 7).2 1
      = some { book_id := 1, current_chapter_id := 10, position_ms := 800,
               last_played_at := 7 } :=
  (c3_seek_unclamped sessA dbA 800 7
      { chapterId := 10, positionMs := 500, shouldPlay := true }
      bkA chA1 rfl rfl rfl).1

/-! ## Claim C5 -/

/-- The delete action of the library screen: deleteBookFiles touches only the
filesystem, then deleteBook removes the books row (cascading to chapters and
progress). No caller of markBookHistoryDeleted exists in the repository, so
the history row is untouched by the flow. -/
def deleteFlow (db : Db) (bookId : Nat) : Db :=
  deleteBook db bookId

/-- Claim C5, evaluated at a failing input: deleting the sample book removes
the books row but leaves its history row with is_in_library still 1 and
book_id still set — the delete flow never calls markBookHistoryDeleted, the
helper that would have set is_in_library to 0 and book_id to NULL (shown in
the last conjunct). The ledger rows are retained. -/
theorem c5_delete_flow_bug :
    (deleteFlow dbA 1).books = []
    ∧ (deleteFlow dbA 1).book_history = [histA]
    ∧ histA.is_in_library = 1
    ∧ histA.book_id = some 1
    ∧ (deleteFlow dbA 1).listening_sessions = dbA.listening_sessions
    ∧ (markBookHistoryDeleted dbA 1).book_history
        = [{ histA with is_in_library := 0, book_id := none }] := by
  refine ⟨?_, rfl, rfl, rfl, rfl, ?_⟩
  · rfl
  · simp [markBookHistoryDeleted, dbA, histA]

/-! ## Claim C9 -/

/-- Claim C9: loading a book id with no row surfaces as the session-level
error string Book not found, with no exception escaping (the result is ok,
never the error of the Except layer), the session holds no book and no sound,
and the transition guard is cleared. -/
theorem c9_load_book_not_found (s : Session) (db : Db) (bookId now : Nat)
    (createOk : Bool)
    (hbook : s.state.book = none)
    (hmissing : getBookWithChapters db bookId = none) :
    ∃ sErr, loadBook s db bookId now createOk = .ok (sErr, db)
      ∧ sErr.state.error = some "Book not found"
      ∧ sErr.state.book = none
      ∧ sErr.sound = none
      ∧ sErr.state.isLoading = false
      ∧ sErr.isTransitioning = false := by
  refine ⟨{ s with
              isTransitioning := false,
              sound := none,
              state := { s.state with
                           isLoading := false,
                           error := some "Book not found" } },
          ?_, rfl, hbook, rfl, rfl, rfl⟩
  simp only [loadBook, loadBookRun, hbook, Bool.false_and, Bool.false_eq_true,
    if_false, hmissing]
  rfl

/-- Witness for C9: loading book id 99 against the sample store from an empty
session yields the Book not found error state. -/
theorem c9_witness :
    ∃ sErr, loadBook emptySession dbA 99 0 true = .ok (sErr, dbA)
      ∧ sErr.state.error = some "Book not found"
      ∧ sErr.state.book = none
      ∧ sErr.sound = none
      ∧ sErr.state.isLoading = false
      ∧ sErr.isTransitioning = false :=
  c9_load_book_not_found emptySession dbA 99 0 true rfl rfl

/-! ## Claim C10 -/

lemma sessions_updateProgress (db : Db) (b c p t : Nat) :
    (updateProgress db b c p t).listening_sessions = db.listening_sessions := by
  rw [updateProgress]
  split <;> rfl

lemma getTotal_updateProgress (db : Db) (b c p t hid : Nat) :
    getTotalListeningTimeForBook (updateProgress db b c p t) hid
      = getTotalListeningTimeForBook db hid := by
  rw [getTotalListeningTimeForBook, sessions_updateProgress,
    getTotalListeningTimeForBook]

lemma sumFor_bump (l : List SessionRow) (hid ms date : Nat)
    (hany : l.any (fun r =>
      r.book_history_id == hid && r.session_date == date) = true) :
    (((bumpSessionRow l hid ms date).filter
        (fun r => r.book_history_id == hid)).map (fun r => r.duration_ms)).sum
      = ((l.filter (fun r => r.book_history_id == hid)).map
          (fun r => r.duration_ms)).sum + ms := by
  induction l with
  | nil => simp at hany
  | cons r rs ih =>
      by_cases h : r.book_history_id = hid ∧ r.session_date = date
      · simp only [bumpSessionRow, if_pos h]
        simp [List.filter_cons, h.1]
        omega
      · have hpred : (r.book_history_id == hid && r.session_date == date) = false := by
          by_cases h1 : r.book_history_id = hid
          · by_cases h2 : r.session_date = date
            · exact absurd ⟨h1, h2⟩ h
            · simp [h2]
          · simp [h1]
        have hrs : rs.any (fun r =>
            r.book_history_id == hid && r.session_date == date) = true := by
          simp only [List.any_cons, hpred, Bool.false_or] at hany
          exact hany
        simp only [bumpSessionRow, if_neg h]
        by_cases hh : r.book_history_id = hid
        · simp [List.filter_cons, hh, ih hrs]
          omega
        · simp [List.filter_cons, hh, ih hrs]

lemma getTotal_upsert (db : Db) (hid ms date : Nat) :
    getTotalListeningTimeForBook (upsertListeningSession db hid ms date) hid
      = getTotalListeningTimeForBook db hid + ms := by
  rw [upsertListeningSession]
  by_cases hany : (db.listening_sessions.any (fun r =>
      r.book_history_id == hid && r.session_date == date)) = true
  · rw [if_pos hany]
    exact sumFor_bump db.listening_sessions hid ms date hany
  · rw [if_neg hany]
    simp [getTotalListeningTimeForBook, List.filter_append]

lemma saveTick_sessions_of_acc_zero (s : Session) (db : Db) (now today : Nat)
    (ok : Bool) (hacc0 : tickAccum s now = 0) :
    (saveTick s db now today ok).2.listening_sessions
      = db.listening_sessions := by
  rw [saveTick]
  by_cases ht : s.isTransitioning = true
  · rw [if_pos ht]
  · rw [if_neg ht]
    cases hb : s.state.book with
    | none => rfl
    | some book =>
        simp only
        by_cases hz : s.state.chapters.length = 0 ∨ s.state.positionMs = 0
        · rw [if_pos hz]
        · rw [if_neg hz]
          simp only [hacc0, gt_iff_lt, lt_self_iff_false, if_false]
          cases hh : s.bookHistory with
          | none =>
              simp only
              cases hch : s.state.chapters.get? s.state.currentChapterIndex with
              | none => rfl
              | some ch =>
                  simp only
                  split
                  · exact sessions_updateProgress db book.id ch.id
                      s.state.positionMs now
                  · rfl
          | some h =>
              simp only
              cases hch : s.state.chapters.get? s.state.currentChapterIndex with
              | none => rfl
              | some ch =>
                  simp only
                  split
                  · exact sessions_updateProgress db book.id ch.id
                      s.state.positionMs now
                  · rfl

/-- Claim C10: on a flushing reconciler tick the accumulator is reset to zero
before the ledger write is awaited — the post-tick session is identical
whether the upsert succeeds or fails, and in particular the failed tick also
leaves the accumulator at zero; on failure the ledger is unchanged, so the
amount being flushed is permanently discarded and no later tick rewrites it;
on success the ledger gains exactly the flushed amount; and an immediate
second tick at the same instant flushes nothing more (no double count). -/
theorem c10_flush_reset (s : Session) (db : Db) (now today : Nat)
    (b : BookRow) (h : HistoryRow)
    (htrans : s.isTransitioning = false)
    (hbook : s.state.book = some b)
    (hnz : ¬(s.state.chapters.length = 0 ∨ s.state.positionMs = 0))
    (hh : s.bookHistory = some h)
    (hacc : 0 < tickAccum s now) :
    (saveTick s db now today false).1 = (saveTick s db now today true).1
    ∧ (saveTick s db now today false).1.accumulatedListeningMs = 0
    ∧ (saveTick s db now today false).2.listening_sessions
        = db.listening_sessions
    ∧ getTotalListeningTimeForBook (saveTick s db now today true).2 h.id
        = getTotalListeningTimeForBook db h.id + tickAccum s now
    ∧ (saveTick ((saveTick s db now today true).1)
          ((saveTick s db now today true).2) now today true).2.listening_sessions
        = (saveTick s db now today true).2.listening_sessions := by
  have key : ∀ ok : Bool, saveTick s db now today ok =
      ({ s with
           accumulatedListeningMs := 0,
           lastProgressTimestamp :=
             if s.state.isPlaying then some now else none },
       (match s.state.chapters.get? s.state.currentChapterIndex with
        | some ch =>
            if s.state.isPlaying ∨ s.state.positionMs > 0 then
              updateProgress
                (if ok then upsertListeningSession db h.id (tickAccum s now) today
                 else db) b.id ch.id s.state.positionMs now
            else
              (if ok then upsertListeningSession db h.id (tickAccum s now) today
               else db)
        | none =>
            (if ok then upsertListeningSession db h.id (tickAccum s now) today
             else db))) := by
    intro ok
    rw [saveTick, htrans]
    simp only [Bool.false_eq_true, if_false, hbook, if_neg hnz, hh,
      if_pos hacc]
  have hacc2 : tickAccum
      { s with
          accumulatedListeningMs := 0,
          lastProgressTimestamp :=
            if s.state.isPlaying then some now else none } now = 0 := by
    rw [tickAccum]
    cases hp : s.state.isPlaying <;> simp [hp]
  refine ⟨?_, ?_, ?_, ?_, ?_⟩
  · rw [key true, key false]
  · rw [key false]
  · rw [key false]
    simp only [if_neg (Bool.false_ne_true)]
    cases hch : s.state.chapters.get? s.state.currentChapterIndex with
    | none => rfl
    | some ch =>
        simp only
        split
        · exact sessions_updateProgress db b.id ch.id s.state.positionMs now
        · rfl
  · rw [key true]
    simp only [if_pos rfl]
    cases hch : s.state.chapters.get? s.state.currentChapterIndex with
    | none => exact getTotal_upsert db h.id (tickAccum s now) today
    | some ch =>
        simp only
        split
        · rw [getTotal_updateProgress]
          exact getTotal_upsert db h.id (tickAccum s now) today
        · exact getTotal_upsert db h.id (tickAccum s now) today
  · have hfst : (saveTick s db now today true).1 =
        { s with
            accumulatedListeningMs := 0,
            lastProgressTimestamp :=
              if s.state.isPlaying then some now else none } := by
      rw [key true]
    rw [hfst]
    exact saveTick_sessions_of_acc_zero _ _ now today true hacc2

/-- Witness for C10: a failed flush of 3000 ms accumulated on the sample
session leaves the ledger untouched and the accumulator at zero. -/
theorem c10_witness :
    (saveTick { sessA with accumulatedListeningMs := 3000 }
        dbA 50 40 false).1.accumulatedListeningMs = 0
    ∧ (saveTick { sessA with accumulatedListeningMs := 3000 }
        dbA 50 40 false).2.listening_sessions = dbA.listening_sessions :=
  ⟨(c10_flush_reset { sessA with accumulatedListeningMs := 3000 } dbA 50 40
      bkA histA rfl rfl (by decide) rfl (by decide)).2.1,
   (c10_flush_reset { sessA with accumulatedListeningMs := 3000 } dbA 50 40
      bkA histA rfl rfl (by decide) rfl (by decide)).2.2.1⟩

/-! ## Claim C2 -/

/-- Run consecutive reconciler ticks at the given timestamps, with every
ledger write succeeding. -/
def runTicks (s : Session) (db : Db) (times : List Nat) (today : Nat) :
    Session × Db :=
  times.foldl (fun p t => saveTick p.1 p.2 t today true) (s, db)

/-- Tick timestamps t0, t0 + d, ..., t0 + (n-1)d. -/
def tickTimes (t0 d n : Nat) : List Nat :=
  (List.range n).map (fun k => t0 + k * d)

lemma saveTick_flush_eq (s : Session) (db : Db) (now today : Nat)
    (b : BookRow) (h : HistoryRow) (ok : Bool)
    (htrans : s.isTransitioning = false)
    (hbook : s.state.book = some b)
    (hnz : ¬(s.state.chapters.length = 0 ∨ s.state.positionMs = 0))
    (hh : s.bookHistory = some h)
    (hacc : 0 < tickAccum s now) :
    saveTick s db now today ok =
      ({ s with
           accumulatedListeningMs := 0,
           lastProgressTimestamp :=
             if s.state.isPlaying then some now else none },
       (match s.state.chapters.get? s.state.currentChapterIndex with
        | some ch =>
            if s.state.isPlaying ∨ s.state.positionMs > 0 then
              updateProgress
                (if ok then upsertListeningSession db h.id (tickAccum s now) today
                 else db) b.id ch.id s.state.positionMs now
            else
              (if ok then upsertListeningSession db h.id (tickAccum s now) today
               else db)
        | none =>
            (if ok then upsertListeningSession db h.id (tickAccum s now) today
             else db))) := by
  rw [saveTick, htrans]
  simp only [Bool.false_eq_true, if_false, hbook, if_neg hnz, hh, if_pos hacc]

lemma saveTick_noflush_eq (s : Session) (db : Db) (now today : Nat)
    (b : BookRow) (ok : Bool)
    (htrans : s.isTransitioning = false)
    (hbook : s.state.book = some b)
    (hnz : ¬(s.state.chapters.length = 0 ∨ s.state.positionMs = 0))
    (hacc0 : tickAccum s now = 0) :
    saveTick s db now today ok =
      ({ s with
           accumulatedListeningMs := 0,
           lastProgressTimestamp :=
             if s.state.isPlaying then some now else none },
       (match s.state.chapters.get? s.state.currentChapterIndex with
        | some ch =>
            if s.state.isPlaying ∨ s.state.positionMs > 0 then
              updateProgress db b.id ch.id s.state.positionMs now
            else db
        | none => db)) := by
  rw [saveTick, htrans]
  simp only [Bool.false_eq_true, if_false, hbook, if_neg hnz, hacc0,
    gt_iff_lt, lt_self_iff_false, if_false]
  cases hh : s.bookHistory <;> simp

lemma saveTick_playing_step (s : Session) (db : Db) (now today : Nat)
    (b : BookRow) (h : HistoryRow)
    (htrans : s.isTransitioning = false)
    (hbook : s.state.book = some b)
    (hnz : ¬(s.state.chapters.length = 0 ∨ s.state.positionMs = 0))
    (hplay : s.state.isPlaying = true)
    (hh : s.bookHistory = some h)
    (hacc0 : s.accumulatedListeningMs = 0) :
    (saveTick s db now today true).1
      = { s with accumulatedListeningMs := 0,
                 lastProgressTimestamp := some now }
    ∧ getTotalListeningTimeForBook (saveTick s db now today true).2 h.id
        = getTotalListeningTimeForBook db h.id
            + (match s.lastProgressTimestamp with
               | some last => min (now - last) 10000
               | none => 0) := by
  have hA : tickAccum s now = (match s.lastProgressTimestamp with
      | some last => min (now - last) 10000
      | none => 0) := by
    rw [tickAccum, hplay]
    cases s.lastProgressTimestamp <;> simp [hacc0]
  by_cases hpos : 0 < tickAccum s now
  · have hk := saveTick_flush_eq s db now today b h true htrans hbook hnz hh hpos
    constructor
    · rw [hk]
      simp [hplay]
    · rw [hk, ← hA]
      simp only [if_pos rfl]
      cases hch : s.state.chapters.get? s.state.currentChapterIndex with
      | none => exact getTotal_upsert db h.id (tickAccum s now) today
      | some ch =>
          simp only
          split
          · rw [getTotal_updateProgress]
            exact getTotal_upsert db h.id (tickAccum s now) today
          · exact getTotal_upsert db h.id (tickAccum s now) today
  · have h0 : tickAccum s now = 0 := Nat.eq_zero_of_not_pos hpos
    have hk := saveTick_noflush_eq s db now today b true htrans hbook hnz h0
    constructor
    · rw [hk]
      simp [hplay]
    · rw [hk, ← hA, h0]
      simp only [Nat.add_zero]
      cases hch : s.state.chapters.get? s.state.currentChapterIndex with
      | none => rfl
      | some ch =>
          simp only
          split
          · rw [getTotal_updateProgress]
          · rfl

lemma runTicks_equal_spacing (today t0 d : Nat) (b : BookRow) (h : HistoryRow)
    (s : Session) (db : Db)
    (htrans : s.isTransitioning = false)
    (hbook : s.state.book = some b)
    (hnz : ¬(s.state.chapters.length = 0 ∨ s.state.positionMs = 0))
    (hplay : s.state.isPlaying = true)
    (hh : s.bookHistory = some h)
    (hacc0 : s.accumulatedListeningMs = 0)
    (hlast : s.lastProgressTimestamp = none) :
    ∀ n : Nat, 1 ≤ n →
    (runTicks s db (tickTimes t0 d n) today).1
      = { s with accumulatedListeningMs := 0,
                 lastProgressTimestamp := some (t0 + (n - 1) * d) }
    ∧ getTotalListeningTimeForBook
          (runTicks s db (tickTimes t0 d n) today).2 h.id
        = getTotalListeningTimeForBook db h.id + (n - 1) * min d 10000 := by
  intro n hn
  induction n, hn using Nat.le_induction with
  | base =>
      have hstep := saveTick_playing_step s db (t0 + 0 * d) today b h htrans
        hbook hnz hplay hh hacc0
      rw [hlast] at hstep
      have e : runTicks s db (tickTimes t0 d 1) today
          = saveTick s db (t0 + 0 * d) today true := rfl
      rw [e]
      constructor
      · rw [hstep.1]
      · rw [hstep.2]
        simp
  | succ n hn ih =>
      have happ : tickTimes t0 d (n + 1) = tickTimes t0 d n ++ [t0 + n * d] := by
        rw [tickTimes, List.range_succ, List.map_append]
        rfl
      have hfold : runTicks s db (tickTimes t0 d (n + 1)) today
          = saveTick (runTicks s db (tickTimes t0 d n) today).1
              (runTicks s db (tickTimes t0 d n) today).2 (t0 + n * d) today true := by
        rw [runTicks, happ, List.foldl_append]
        rfl
      obtain ⟨ih1, ih2⟩ := ih
      have hstep := saveTick_playing_step
        (runTicks s db (tickTimes t0 d n) today).1
        (runTicks s db (tickTimes t0 d n) today).2
        (t0 + n * d) today b h
        (by rw [ih1]; exact htrans)
        (by rw [ih1]; exact hbook)
        (by rw [ih1]; exact hnz)
        (by rw [ih1]; exact hplay)
        (by rw [ih1]; exact hh)
        (by rw [ih1])
      have hdiff : t0 + n * d - (t0 + (n - 1) * d) = d := by
        obtain ⟨m, rfl⟩ := Nat.exists_eq_add_of_le hn
        have e1 : 1 + m - 1 = m := by omega
        rw [e1, Nat.add_mul, Nat.one_mul]
        have e2 : t0 + (d + m * d) = (t0 + m * d) + d := by
          rw [Nat.add_comm d (m * d), ← Nat.add_assoc]
        rw [e2, Nat.add_sub_cancel_left]
      constructor
      · rw [hfold, hstep.1, ih1]
        simp
      · rw [hfold, hstep.2, ih2, ih1]
        simp only
        rw [hdiff]
        have e3 : n + 1 - 1 = n := by omega
        obtain ⟨m, rfl⟩ := Nat.exists_eq_add_of_le hn
        have e4 : 1 + m - 1 = m := by omega
        rw [e3, e4, Nat.add_mul, Nat.one_mul, Nat.add_assoc,
          Nat.add_comm (min d 10000) (m * min d 10000)]

/-- Claim C2: for all-playing reconciler tick sequences with successful
flushes, starting from a fresh accumulator: n ticks spaced d < 10000 ms apart
accumulate exactly (n-1)d ms into the ledger (the first tick contributes
nothing, each later tick the elapsed time, with no double counting); and a
pair of ticks separated by an arbitrary gap g contributes exactly
min(g, 10000) ms, hence at most 10 seconds regardless of g. -/
theorem c2_listening_accumulation (s : Session) (db : Db) (today : Nat)
    (b : BookRow) (h : HistoryRow)
    (htrans : s.isTransitioning = false)
    (hbook : s.state.book = some b)
    (hnz : ¬(s.state.chapters.length = 0 ∨ s.state.positionMs = 0))
    (hplay : s.state.isPlaying = true)
    (hh : s.bookHistory = some h)
    (hacc0 : s.accumulatedListeningMs = 0)
    (hlast : s.lastProgressTimestamp = none) :
    (∀ n t0 d : Nat, 1 ≤ n → d < 10000 →
      getTotalListeningTimeForBook
          (runTicks s db (tickTimes t0 d n) today).2 h.id
        = getTotalListeningTimeForBook db h.id + (n - 1) * d)
    ∧ (∀ t0 g : Nat,
        getTotalListeningTimeForBook
            (runTicks s db [t0, t0 + g] today).2 h.id
          = getTotalListeningTimeForBook db h.id + min g 10000
        ∧ min g 10000 ≤ 10000) := by
  constructor
  · intro n t0 d hn hd
    have := (runTicks_equal_spacing today t0 d b h s db htrans hbook hnz hplay
      hh hacc0 hlast n hn).2
    rw [this, Nat.min_eq_left (Nat.le_of_lt hd)]
  · intro t0 g
    have hstep1 := saveTick_playing_step s db t0 today b h htrans hbook hnz
      hplay hh hacc0
    rw [hlast] at hstep1
    have hrun : runTicks s db [t0, t0 + g] today
        = saveTick (saveTick s db t0 today true).1
            (saveTick s db t0 today true).2 (t0 + g) today true := rfl
    have hstep2 := saveTick_playing_step (saveTick s db t0 today true).1
      (saveTick s db t0 today true).2 (t0 + g) today b h
      (by rw [hstep1.1]; exact htrans)
      (by rw [hstep1.1]; exact hbook)
      (by rw [hstep1.1]; exact hnz)
      (by rw [hstep1.1]; exact hplay)
      (by rw [hstep1.1]; exact hh)
      (by rw [hstep1.1])
    constructor
    · rw [hrun, hstep2.2, hstep1.2, hstep1.1]
      simp only [Nat.add_zero]
      rw [Nat.add_sub_cancel_left]
    · exact Nat.min_le_right g 10000

/-- Witness for C2: three ticks 4000 ms apart on the sample session add
exactly 8000 ms to the ledger of history row 5. -/
theorem c2_witness :
    getTotalListeningTimeForBook (runTicks sessA dbA (tickTimes 100 4000 3) 1).2 5
      = getTotalListeningTimeForBook dbA 5 + 2 * 4000 := by
  have := (c2_listening_accumulation sessA dbA 1 bkA histA rfl rfl (by decide)
    rfl rfl rfl rfl).1 3 100 4000 (by decide) (by decide)
  exact this

/-! ## Claim C1 -/

/-- The total-duration writes among a list of recorded writes, with their
arguments. -/
def bookDurWrites (ws : List DbWrite) : List (Nat × Nat) :=
  ws.filterMap (fun w => match w with
    | .bookDuration bookId total => some (bookId, total)
    | _ => none)

lemma mapHas_iff (m : List (Nat × Nat)) (k : Nat) :
    mapHas m k = true ↔ k ∈ m.map Prod.fst := by
  rw [mapHas, List.any_eq_true]
  constructor
  · rintro ⟨p, hp, hpk⟩
    rw [beq_iff_eq] at hpk
    exact hpk ▸ List.mem_map_of_mem Prod.fst hp
  · intro hk
    obtain ⟨p, hp, hpk⟩ := List.mem_map.mp hk
    exact ⟨p, hp, beq_iff_eq.mpr hpk⟩

lemma complete_map_has (m : List (Nat × Nat)) (ids : List Nat) (a : Nat)
    (hsub : ∀ x ∈ m.map Prod.fst, x ∈ ids)
    (hnk : (m.map Prod.fst).Nodup)
    (hni : ids.Nodup)
    (hlen : m.length = ids.length)
    (ha : a ∈ ids) :
    mapHas m a = true := by
  rw [mapHas_iff]
  have hsubf : (m.map Prod.fst).toFinset ⊆ ids.toFinset := by
    intro x hx
    rw [List.mem_toFinset] at hx ⊢
    exact hsub x hx
  have hcard1 : (m.map Prod.fst).toFinset.card = m.length := by
    rw [List.toFinset_card_of_nodup hnk, List.length_map]
  have hcard2 : ids.toFinset.card = ids.length :=
    List.toFinset_card_of_nodup hni
  have heq : ids.toFinset = (m.map Prod.fst).toFinset :=
    (Finset.eq_of_subset_of_card_le hsubf
      (by rw [hcard1, hcard2, hlen])).symm
  rw [← List.mem_toFinset, ← heq]
  exact List.mem_toFinset.mpr ha

lemma bookDurWrites_finishEdge (s : Session) (f l : Bool) :
    bookDurWrites (finishEdge s f l).2 = [] := by
  rw [finishEdge]
  split
  · split
    · rfl
    · cases s.bookHistory <;> rfl
  · rfl

/-- Claim C1 (amended): in the status-update handler of the audio session,
the total-duration write fires exactly at the tick whose duration insertion
brings the per-session map to size N, writing the exact sum of the N
discovered durations; no write is issued by the handler while the map is
smaller or when the current chapter is already recorded, and once the map
holds all N chapters no further tick fires the write again. However, the
player screen additionally writes the current, possibly partial, sum of
discovered durations as the total duration on unmount whenever the map is
nonempty, so partial sums can reach total_duration_ms through that second
path. -/
theorem c1_duration_convergence (s : Session) (pos dur : Nat)
    (playing fin looping : Bool) (b : BookRow) (ch : ChapterRow)
    (htrans : s.isTransitioning = false)
    (hbook : s.state.book = some b)
    (hch : s.state.chapters.get? s.state.currentChapterIndex = some ch)
    (hdur : 0 < dur)
    (hsub : ∀ k ∈ s.chapterDurations.map Prod.fst,
      k ∈ s.state.chapters.map ChapterRow.id)
    (hnk : (s.chapterDurations.map Prod.fst).Nodup)
    (hni : (s.state.chapters.map ChapterRow.id).Nodup) :
    (mapHas s.chapterDurations ch.id = false →
      mapSize (mapSet s.chapterDurations ch.id dur) = s.state.chapters.length →
      bookDurWrites (onPlaybackStatusUpdate s
          (.loaded pos dur playing fin looping)).2.1
        = [(b.id, mapSumValues (mapSet s.chapterDurations ch.id dur))])
    ∧ (mapHas s.chapterDurations ch.id = false →
      mapSize (mapSet s.chapterDurations ch.id dur) ≠ s.state.chapters.length →
      bookDurWrites (onPlaybackStatusUpdate s
          (.loaded pos dur playing fin looping)).2.1 = [])
    ∧ (mapHas s.chapterDurations ch.id = true →
      bookDurWrites (onPlaybackStatusUpdate s
          (.loaded pos dur playing fin looping)).2.1 = [])
    ∧ (mapSize s.chapterDurations = s.state.chapters.length →
      bookDurWrites (onPlaybackStatusUpdate s
          (.loaded pos dur playing fin looping)).2.1 = [])
    ∧ (∀ (r : PlayerScreenRefs) (b2 : BookRow), r.book = some b2 →
        r.chapters.length > 0 → mapSize r.chapterDurations > 0 →
        DbWrite.bookDuration b2.id (mapSumValues r.chapterDurations)
          ∈ playerUnmountWrites r) := by
  have hw : (onPlaybackStatusUpdate s
      (.loaded pos dur playing fin looping)).2.1
      = (trackChapterDuration s dur).2 ++ (finishEdge s fin looping).2 := by
    rw [onPlaybackStatusUpdate]
    simp [htrans]
  have hbw : bookDurWrites ((trackChapterDuration s dur).2
      ++ (finishEdge s fin looping).2)
      = bookDurWrites (trackChapterDuration s dur).2 := by
    rw [bookDurWrites, List.filterMap_append]
    have := bookDurWrites_finishEdge s fin looping
    rw [bookDurWrites] at this
    rw [this, List.append_nil, ← bookDurWrites]
  refine ⟨?_, ?_, ?_, ?_, ?_⟩
  · intro hhas hsize
    rw [hw, hbw, trackChapterDuration]
    simp only [if_pos hdur, hch, hhas, Bool.false_eq_true, if_false, hbook,
      if_pos hsize]
    cases s.bookHistory <;> rfl
  · intro hhas hsize
    rw [hw, hbw, trackChapterDuration]
    simp only [if_pos hdur, hch, hhas, Bool.false_eq_true, if_false, hbook,
      if_neg hsize]
    rfl
  · intro hhas
    rw [hw, hbw, trackChapterDuration]
    simp only [if_pos hdur, hch, hhas, if_true]
    rfl
  · intro hfull
    have hmem : ch.id ∈ s.state.chapters.map ChapterRow.id := by
      have hc : ch ∈ s.state.chapters := by
        have := List.get?_eq_some.mp hch
        obtain ⟨hlt, hval⟩ := this
        exact hval ▸ List.get_mem _ _ _
      exact List.mem_map_of_mem ChapterRow.id hc
    have hhas : mapHas s.chapterDurations ch.id = true :=
      complete_map_has s.chapterDurations (s.state.chapters.map ChapterRow.id)
        ch.id hsub hnk hni
        (by rw [List.length_map]; exact hfull) hmem
    rw [hw, hbw, trackChapterDuration]
    simp only [if_pos hdur, hch, hhas, if_true]
    rfl
  · intro r b2 hb2 hlen0 hsz
    rw [playerUnmountWrites]
    simp only [hb2, if_pos hlen0, if_pos hsz]
    simp [List.mem_append]

/-- The player screen refs mid-book: two chapters, only the first duration
(777 ms) discovered so far. -/
def refsPartial : PlayerScreenRefs :=
  { book := some bkA, chapters := [chA1, chA2], currentChapterIndex := 0,
    positionMs := 0, chapterDurations := [(10, 777)] }

/-- Counterexample for C1 as stated: the player screen unmount effect writes
total_duration_ms = 777 for the sample book while the duration map holds 1 of
2 chapters — a total-duration write with the map strictly smaller than N,
which the claim forbids. -/
theorem c1_partial_write_counterexample :
    playerUnmountWrites refsPartial = [DbWrite.bookDuration 1 777]
    ∧ mapSize refsPartial.chapterDurations < refsPartial.chapters.length := by
  constructor
  · rfl
  · decide

/-- Witness for C1: a tick reporting 400 ms for the second chapter completes
the map of the sample two-chapter book and fires the single total-duration
write of 600 + 400 = 1000 ms. -/
theorem c1_witness :
    bookDurWrites (onPlaybackStatusUpdate
        { sessA with
            state := { sessA.state with currentChapterIndex := 1 },
            chapterDurations := [(10, 600)] }
        (.loaded 42 400 true false false)).2.1 = [(1, 1000)] := by
  have := (c1_duration_convergence
      { sessA with
          state := { sessA.state with currentChapterIndex := 1 },
          chapterDurations := [(10, 600)] }
      42 400 true false false bkA chA2 rfl rfl rfl (by decide) (by decide)
      (by decide) (by decide)).1 rfl (by decide)
  exact this

/-! ## Claim C6 -/

/-- At most one history row per book id. -/
def uniqueHistory (db : Db) : Prop :=
  ∀ bid : Nat, historyCountFor db bid ≤ 1

lemma backfillHistory_uniq : ∀ (bs : List BookRow) (db : Db),
    uniqueHistory db → uniqueHistory (backfillHistory db bs) := by
  intro bs
  induction bs with
  | nil => intro db h; exact h
  | cons b rest ih =>
      intro db h
      rw [backfillHistory]
      split
      · exact ih db h
      · next hany =>
          apply ih
          intro bid
          rw [historyCountFor]
          simp only [List.countP_append]
          by_cases hbid : bid = b.id
          · subst hbid
            have h0 : db.book_history.countP
                (fun hr => hr.book_id == some b.id) = 0 := by
              rw [List.countP_eq_zero]
              intro a ha hc
              exact hany (List.any_eq_true.mpr ⟨a, ha, hc⟩)
            rw [h0]
            simp [historyRowOfBook, List.countP_cons]
          · have h1 : List.countP (fun hr => hr.book_id == some bid)
                [historyRowOfBook db.nextHistoryId b] = 0 := by
              simp [historyRowOfBook, List.countP_cons, Ne.symm hbid]
            rw [h1]
            have := h bid
            rw [historyCountFor] at this
            omega

lemma getOrCreate_uniq (db : Db) (bookId : Nat) (h : uniqueHistory db) :
    uniqueHistory (match getOrCreateBookHistory db bookId with
      | .ok r => r.2
      | .error _ => db) := by
  rw [getOrCreateBookHistory]
  cases hf : db.book_history.find? (fun r => r.book_id == some bookId) with
  | some e => exact h
  | none =>
      cases hb : db.books.find? (fun b => b.id == bookId) with
      | none => exact h
      | some book =>
          intro bid
          rw [historyCountFor]
          simp only [List.countP_append]
          have hpa := List.find?_some hb
          rw [beq_iff_eq] at hpa
          by_cases hbk : bid = bookId
          · subst hbk
            have h0 : db.book_history.countP
                (fun hr => hr.book_id == some bid) = 0 := by
              rw [List.countP_eq_zero]
              intro a ha hc
              have := List.find?_eq_none.mp hf a ha
              exact absurd hc this
            rw [h0]
            simp [historyRowOfBook, List.countP_cons, hpa]
          · have h1 : List.countP (fun hr => hr.book_id == some bid)
                [historyRowOfBook db.nextHistoryId book] = 0 := by
              have : ¬(book.id = bid) := fun hc => hbk (by rw [← hc, hpa])
              simp [historyRowOfBook, List.countP_cons, this]
            rw [h1]
            have := h bid
            rw [historyCountFor] at this
            omega

lemma applyOp_uniq (db : Db) (op : LibOp) (h : uniqueHistory db) :
    uniqueHistory (applyOp db op) := by
  cases op with
  | opImport t f a c now => intro bid; exact h bid
  | opRestart => exact backfillHistory_uniq db.books db h
  | opPlay bookId => exact getOrCreate_uniq db bookId h
  | opDelete bookId => intro bid; exact h bid

lemma applyOps_uniq_aux (ops : List LibOp) :
    ∀ db : Db, uniqueHistory db → uniqueHistory (applyOps db ops) := by
  induction ops with
  | nil => intro db h; exact h
  | cons op rest ih =>
      intro db h
      rw [applyOps, List.foldl_cons]
      exact ih (applyOp db op) (applyOp_uniq db op h)

/-- Claim C6 (amended): every store reachable from an empty database through
importing, reopening (the initializeDatabase backfill), first playback and
deletion has at most one BookHistory row per book id; importing a book never
creates a history row; and first playback of a book that has none creates
exactly one (getOrCreateBookHistory). However, a history row can also come
into existence without any playback: the initializeDatabase backfill creates
rows for history-less books whenever the database is reopened. -/
theorem c6_history_uniqueness :
    (∀ (ops : List LibOp) (bid : Nat),
      historyCountFor (applyOps emptyDb ops) bid ≤ 1)
    ∧ (∀ (db : Db) (t f : String) (a c : Option String) (now : Nat),
        ((insertBook db t f a c now).2).book_history = db.book_history)
    ∧ (∀ (db : Db) (bookId : Nat) (book : BookRow),
        db.books.find? (fun b => b.id == bookId) = some book →
        db.book_history.find? (fun r => r.book_id == some bookId) = none →
        ∃ row newDb, getOrCreateBookHistory db bookId = .ok (row, newDb)
          ∧ historyCountFor newDb bookId = historyCountFor db bookId + 1) := by
  refine ⟨?_, ?_, ?_⟩
  · intro ops bid
    have base : uniqueHistory emptyDb := by
      intro b2
      rw [historyCountFor]
      simp [emptyDb]
    exact applyOps_uniq_aux ops emptyDb base bid
  · intro db t f a c now
    rfl
  · intro db bookId book hb hf
    rw [getOrCreateBookHistory, hf, hb]
    refine ⟨historyRowOfBook db.nextHistoryId book, _, rfl, ?_⟩
    rw [historyCountFor, historyCountFor]
    simp only [List.countP_append]
    have hpa := List.find?_some hb
    rw [beq_iff_eq] at hpa
    simp [historyRowOfBook, List.countP_cons, hpa]

/-- Counterexample for C6 as stated: importing a book and then reopening the
database produces a history row for the still-live book although no playback
ever happened — the backfill, not first playback, created it. -/
theorem c6_backfill_counterexample :
    historyCountFor
        (applyOps emptyDb [LibOp.opImport "A" "/a" none none 0,
          LibOp.opRestart]) 1 = 1
    ∧ (applyOps emptyDb [LibOp.opImport "A" "/a" none none 0,
          LibOp.opRestart]).books.length = 1
    ∧ ([LibOp.opImport "A" "/a" none none 0, LibOp.opRestart].all
        (fun op => match op with
          | LibOp.opPlay _ => false
          | _ => true)) = true := by
  refine ⟨?_, rfl, by decide⟩
  rfl

/-- Witness for C6: first playback of the sample book against a store with no
history row creates exactly one. -/
theorem c6_witness :
    ∃ row newDb,
      getOrCreateBookHistory { dbA with book_history := [] } 1
        = .ok (row, newDb)
      ∧ historyCountFor newDb 1
          = historyCountFor { dbA with book_history := [] } 1 + 1 :=
  (c6_history_uniqueness).2.2 { dbA with book_history := [] } 1 bkA rfl rfl

/-! ## Claim C8 -/

lemma goToChapterTrace_guard (s : Session) (i p : Nat) (ok : Bool) :
    ∀ t ∈ goToChapterTrace s i p ok, t.isTransitioning = s.isTransitioning := by
  intro t ht
  rw [goToChapterTrace] at ht
  cases hch : s.state.chapters.get? i with
  | none =>
      rw [hch] at ht
      simp only [List.mem_singleton] at ht
      subst ht
      rfl
  | some ch =>
      rw [hch] at ht
      simp only [loadChapterAudioTrace, List.mem_cons,
        List.not_mem_nil, or_false] at ht
      rcases ht with rfl | rfl | rfl | rfl
      · rfl
      · rfl
      · rfl
      · cases ok <;> rfl

lemma stopAndUnloadTrace_guard (s : Session) :
    ∀ t ∈ stopAndUnloadTrace s, t.isTransitioning = s.isTransitioning := by
  intro t ht
  rw [stopAndUnloadTrace] at ht
  simp only [List.mem_cons, List.not_mem_nil, or_false] at ht
  rcases ht with rfl | rfl | rfl
  · rfl
  · rfl
  · rfl

lemma loadBookRun_sets_guard (s : Session) (db : Db) (bookId now : Nat)
    (ok : Bool)
    (hcond : ¬((match s.state.book with
        | some b => b.id == bookId
        | none => false) && s.sound.isSome) = true) :
    ∀ (tr : List Session) (db2 : Db),
      loadBookRun s db bookId now ok = .ok (tr, db2) →
      tr.head?.map Session.isTransitioning = some true := by
  intro tr db2 heq
  rw [loadBookRun, if_neg hcond] at heq
  dsimp only at heq
  repeat' split at heq
  all_goals cases heq
  all_goals rfl

/-- Claim C8 (amended): while the transition guard flag is set, every loaded
status callback is discarded without touching the session or the store, and
every reconciler tick is likewise discarded; load_book sets the guard on
entry (its first trace state carries the flag); but go_to_chapter and
stop_and_unload never touch the guard — of the three session-mutating
operations only load_book participates in the mutual exclusion — and a
not-loaded error status callback is processed even while the guard is set,
recording the error into session state rather than being discarded. -/
theorem c8_guard_behavior :
    (∀ (s : Session) (pos dur : Nat) (playing fin looping : Bool),
      s.isTransitioning = true →
      onPlaybackStatusUpdate s (.loaded pos dur playing fin looping)
        = (s, [], none))
    ∧ (∀ (s : Session) (db : Db) (now today : Nat) (ok : Bool),
      s.isTransitioning = true →
      saveTick s db now today ok = (s, db))
    ∧ (∀ (s : Session) (i p : Nat) (ok : Bool),
        ∀ t ∈ goToChapterTrace s i p ok,
          t.isTransitioning = s.isTransitioning)
    ∧ (∀ s : Session, ∀ t ∈ stopAndUnloadTrace s,
        t.isTransitioning = s.isTransitioning)
    ∧ (∀ (s : Session) (db : Db) (bookId now : Nat) (ok : Bool),
        ¬((match s.state.book with
            | some b => b.id == bookId
            | none => false) && s.sound.isSome) = true →
        ∀ (tr : List Session) (db2 : Db),
          loadBookRun s db bookId now ok = .ok (tr, db2) →
          tr.head?.map Session.isTransitioning = some true)
    ∧ (∀ (s : Session) (e : String),
        s.isTransitioning = true →
        onPlaybackStatusUpdate s (.notLoaded (some e))
          = ({ s with state := { s.state with
                error := some ("Playback error: " ++ e) } }, [], none)) := by
  refine ⟨?_, ?_, ?_, ?_, ?_, ?_⟩
  · intro s pos dur playing fin looping hg
    rw [onPlaybackStatusUpdate]
    simp [hg]
  · intro s db now today ok hg
    rw [saveTick]
    simp [hg]
  · exact goToChapterTrace_guard
  · exact stopAndUnloadTrace_guard
  · exact loadBookRun_sets_guard
  · intro s e _
    rfl

/-- Counterexample for C8 as stated: on the sample playing session,
go_to_chapter and stop_and_unload leave the transition guard false at every
await point of their execution — neither operation sets the guard the claim
says all three operations share — and a not-loaded error callback arriving
while the guard is set still mutates the session error state instead of being
discarded. -/
theorem c8_guard_counterexample :
    ((goToChapterTrace sessA 1 0 true).all
        (fun t => t.isTransitioning == false)) = true
    ∧ ((stopAndUnloadTrace sessA).all
        (fun t => t.isTransitioning == false)) = true
    ∧ (onPlaybackStatusUpdate { sessA with isTransitioning := true }
          (.notLoaded (some "boom"))).1.state.error
        = some "Playback error: boom" := by
  refine ⟨rfl, rfl, rfl⟩

/-- Witness for C8: with the guard set on the sample session, a loaded status
callback and a reconciler tick both leave session and store untouched. -/
theorem c8_witness :
    onPlaybackStatusUpdate { sessA with isTransitioning := true }
        (.loaded 100 1000 true false false)
      = ({ sessA with isTransitioning := true }, [], none)
    ∧ saveTick { sessA with isTransitioning := true } dbA 50 40 true
      = ({ sessA with isTransitioning := true }, dbA) :=
  ⟨(c8_guard_behavior).1 { sessA with isTransitioning := true }
      100 1000 true false false rfl,
   (c8_guard_behavior).2.1 { sessA with isTransitioning := true }
      dbA 50 40 true rfl⟩

end BookPlayer
